import Mathlib

/-!
Verification of the Log2 shaper log encoding / decoding pair
(repository file: Log2 shaper/log.py).

The two functions are embedded over the real numbers: the Python float
operations np.log2 and 2 ** x become Real.logb 2 and real exponentiation
(rpow).  The collaborator primitives to_domain_1 and from_range_1 are the
identity in the default library configuration and are embedded as such.
-/

/-- Collaborator primitive to_domain_1: identity in the default configuration. -/
def to_domain_1 (x : ℝ) : ℝ := x

/-- Collaborator primitive from_range_1: identity in the default configuration. -/
def from_range_1 (x : ℝ) : ℝ := x

/-- Embedding of log_encoding_Log2 from Log2 shaper/log.py:
lin = to_domain_1(lin); lg2 = np.log2(lin / middle_grey);
log_norm = (lg2 - min_exposure) / (max_exposure - min_exposure);
return from_range_1(log_norm). -/
noncomputable def log_encoding_Log2
    (lin middle_grey min_exposure max_exposure : ℝ) : ℝ :=
  let lin' := to_domain_1 lin
  let lg2 := Real.logb 2 (lin' / middle_grey)
  let log_norm := (lg2 - min_exposure) / (max_exposure - min_exposure)
  from_range_1 log_norm

/-- Embedding of log_decoding_Log2 from Log2 shaper/log.py:
log_norm = to_domain_1(log_norm);
lg2 = log_norm * (max_exposure - min_exposure) + min_exposure;
lin = (2 ** lg2) * middle_grey; return from_range_1(lin). -/
noncomputable def log_decoding_Log2
    (log_norm middle_grey min_exposure max_exposure : ℝ) : ℝ :=
  let log_norm' := to_domain_1 log_norm
  let lg2 := log_norm' * (max_exposure - min_exposure) + min_exposure
  let lin := (2 : ℝ) ^ lg2 * middle_grey
  from_range_1 lin

/-- Default value of the middle_grey parameter in both signatures: 0.18. -/
noncomputable def default_middle_grey : ℝ := 0.18

/-- Default value of the min_exposure parameter in both signatures:
the Python default expression 0.18 * 2 ** -6.5. -/
noncomputable def default_min_exposure : ℝ := 0.18 * (2 : ℝ) ^ (-6.5 : ℝ)

/-- Default value of the max_exposure parameter in both signatures:
the Python default expression 0.18 * 2 ** 6.5. -/
noncomputable def default_max_exposure : ℝ := 0.18 * (2 : ℝ) ^ (6.5 : ℝ)

/-- C1: for every lin > 0 and every valid parameter triple (middle_grey > 0,
max_exposure > min_exposure), with to_domain_1 and from_range_1 the identity,
decoding the encoding of lin gives back lin exactly (real arithmetic). -/
theorem decode_encode_round_trip
    (lin middle_grey min_exposure max_exposure : ℝ)
    (hg : 0 < middle_grey) (hlin : 0 < lin)
    (hmM : min_exposure < max_exposure) :
    log_decoding_Log2 (log_encoding_Log2 lin middle_grey min_exposure max_exposure)
      middle_grey min_exposure max_exposure = lin := by
  have hne : max_exposure - min_exposure ≠ 0 := sub_ne_zero.mpr (ne_of_gt hmM)
  simp only [log_decoding_Log2, log_encoding_Log2, to_domain_1, from_range_1]
  have h1 : (Real.logb 2 (lin / middle_grey) - min_exposure) /
      (max_exposure - min_exposure) * (max_exposure - min_exposure) + min_exposure
      = Real.logb 2 (lin / middle_grey) := by
    field_simp
  rw [h1, Real.rpow_logb (by norm_num) (by norm_num) (div_pos hlin hg)]
  field_simp

/-- Witness for C1 at lin = 2, middle_grey = 1, min_exposure = 0,
max_exposure = 1. -/
theorem decode_encode_round_trip_witness :
    (0 : ℝ) < 1 ∧ (0 : ℝ) < 2 ∧ (0 : ℝ) < 1 ∧
      log_decoding_Log2 (log_encoding_Log2 2 1 0 1) 1 0 1 = 2 :=
  ⟨by norm_num, by norm_num, by norm_num,
    decode_encode_round_trip 2 1 0 1 (by norm_num) (by norm_num) (by norm_num)⟩

/-- C2: for every real log_norm and every valid parameter triple
(middle_grey > 0, max_exposure > min_exposure), with identity hooks,
encoding the decoding of log_norm gives back log_norm exactly
(real arithmetic). -/
theorem encode_decode_round_trip
    (log_norm middle_grey min_exposure max_exposure : ℝ)
    (hg : 0 < middle_grey) (hmM : min_exposure < max_exposure) :
    log_encoding_Log2 (log_decoding_Log2 log_norm middle_grey min_exposure max_exposure)
      middle_grey min_exposure max_exposure = log_norm := by
  have hne : max_exposure - min_exposure ≠ 0 := sub_ne_zero.mpr (ne_of_gt hmM)
  simp only [log_decoding_Log2, log_encoding_Log2, to_domain_1, from_range_1]
  have h1 : (2 : ℝ) ^ (log_norm * (max_exposure - min_exposure) + min_exposure) *
      middle_grey / middle_grey
      = (2 : ℝ) ^ (log_norm * (max_exposure - min_exposure) + min_exposure) := by
    field_simp
  rw [h1, Real.logb_rpow (by norm_num) (by norm_num)]
  field_simp

/-- Witness for C2 at log_norm = 3, middle_grey = 1, min_exposure = 0,
max_exposure = 1. -/
theorem encode_decode_round_trip_witness :
    (0 : ℝ) < 1 ∧ (0 : ℝ) < 1 ∧
      log_encoding_Log2 (log_decoding_Log2 3 1 0 1) 1 0 1 = 3 :=
  ⟨by norm_num, by norm_num,
    encode_decode_round_trip 3 1 0 1 (by norm_num) (by norm_num)⟩

/-- C3: under middle_grey > 0 and max_exposure > min_exposure,
log_encoding_Log2 is strictly increasing in lin on lin > 0, and
log_decoding_Log2 is strictly increasing in log_norm over all reals. -/
theorem encode_decode_strict_mono
    (middle_grey min_exposure max_exposure : ℝ)
    (hg : 0 < middle_grey) (hmM : min_exposure < max_exposure) :
    (∀ a b : ℝ, 0 < a → a < b →
      log_encoding_Log2 a middle_grey min_exposure max_exposure <
        log_encoding_Log2 b middle_grey min_exposure max_exposure) ∧
    (∀ y z : ℝ, y < z →
      log_decoding_Log2 y middle_grey min_exposure max_exposure <
        log_decoding_Log2 z middle_grey min_exposure max_exposure) := by
  have hpos : 0 < max_exposure - min_exposure := sub_pos.mpr hmM
  constructor
  · intro a b ha hab
    simp only [log_encoding_Log2, to_domain_1, from_range_1]
    have hlog : Real.logb 2 (a / middle_grey) < Real.logb 2 (b / middle_grey) :=
      Real.logb_lt_logb (by norm_num) (div_pos ha hg)
        ((div_lt_div_iff_of_pos_right hg).mpr hab)
    exact div_lt_div_of_pos_right (by linarith) hpos
  · intro y z hyz
    simp only [log_decoding_Log2, to_domain_1, from_range_1]
    have harg : y * (max_exposure - min_exposure) + min_exposure <
        z * (max_exposure - min_exposure) + min_exposure := by
      have := mul_lt_mul_of_pos_right hyz hpos
      linarith
    exact mul_lt_mul_of_pos_right
      ((Real.rpow_lt_rpow_left_iff (by norm_num)).mpr harg) hg

/-- Witness for C3 with middle_grey = 1, min_exposure = 0, max_exposure = 1,
at the pairs (1, 2) and (0, 1). -/
theorem encode_decode_strict_mono_witness :
    (0 : ℝ) < 1 ∧
      log_encoding_Log2 1 1 0 1 < log_encoding_Log2 2 1 0 1 ∧
      log_decoding_Log2 0 1 0 1 < log_decoding_Log2 1 1 0 1 :=
  ⟨by norm_num,
    (encode_decode_strict_mono 1 0 1 (by norm_num) (by norm_num)).1 1 2
      (by norm_num) (by norm_num),
    (encode_decode_strict_mono 1 0 1 (by norm_num) (by norm_num)).2 0 1
      (by norm_num)⟩

/-- C4 counterexample: the default min_exposure and max_exposure are NOT the
stop counts -6.5 and +6.5; the default min_exposure is the positive linear
value 0.18 * 2 ^ (-6.5), so it cannot equal -6.5. -/
theorem default_exposures_not_stop_counts :
    ¬ (default_min_exposure = -6.5 ∧ default_max_exposure = 6.5) := by
  intro h
  have hpos : 0 < default_min_exposure :=
    mul_pos (by norm_num) (Real.rpow_pos_of_pos (by norm_num) _)
  rw [h.1] at hpos
  norm_num at hpos

/-- C4 amended: the defaults are middle_grey = 0.18 and the linear exposure
values 6.5 stops below and above middle grey: log2 of the ratio between each
default exposure bound and middle grey is -6.5 resp. +6.5 (the defaults are
0.18 * 2 ^ (-6.5) and 0.18 * 2 ^ 6.5, not the stop counts themselves). -/
theorem default_parameters_are_stop_shifted_grey :
    default_middle_grey = 0.18 ∧
    Real.logb 2 (default_min_exposure / default_middle_grey) = -6.5 ∧
    Real.logb 2 (default_max_exposure / default_middle_grey) = 6.5 := by
  refine ⟨rfl, ?_, ?_⟩
  · have h : default_min_exposure / default_middle_grey = (2 : ℝ) ^ (-6.5 : ℝ) := by
      rw [default_min_exposure, default_middle_grey]
      field_simp
    rw [h, Real.logb_rpow (by norm_num) (by norm_num)]
  · have h : default_max_exposure / default_middle_grey = (2 : ℝ) ^ (6.5 : ℝ) := by
      rw [default_max_exposure, default_middle_grey]
      field_simp
    rw [h, Real.logb_rpow (by norm_num) (by norm_num)]

/-- C6: with the default parameters and identity hooks, encoding middle grey
itself yields exactly (0 - min_exposure) / (max_exposure - min_exposure);
for these defaults that position is not 1/2 (the default exposure bounds are
not symmetric about 0 when used as stop values). -/
theorem encode_middle_grey_fixed_point :
    log_encoding_Log2 default_middle_grey default_middle_grey
        default_min_exposure default_max_exposure =
      (0 - default_min_exposure) / (default_max_exposure - default_min_exposure) ∧
    (0 - default_min_exposure) / (default_max_exposure - default_min_exposure) ≠ 1 / 2 := by
  have hm : 0 < default_min_exposure :=
    mul_pos (by norm_num) (Real.rpow_pos_of_pos (by norm_num) _)
  have hMm : default_min_exposure < default_max_exposure := by
    have : ((2 : ℝ) ^ (-6.5 : ℝ)) < (2 : ℝ) ^ (6.5 : ℝ) :=
      (Real.rpow_lt_rpow_left_iff (by norm_num)).mpr (by norm_num)
    rw [default_min_exposure, default_max_exposure]
    nlinarith
  constructor
  · simp only [log_encoding_Log2, to_domain_1, from_range_1]
    have hg : default_middle_grey ≠ 0 := by
      rw [default_middle_grey]; norm_num
    rw [div_self hg, Real.logb_one]
  · have hneg : (0 - default_min_exposure) /
        (default_max_exposure - default_min_exposure) < 0 :=
      div_neg_of_neg_of_pos (by linarith) (by linarith)
    intro h
    rw [h] at hneg
    norm_num at hneg

/-- C9: for lin > 0 and a valid parameter triple, doubling the linear input
advances the encoded output by exactly 1 / (max_exposure - min_exposure),
independently of lin. -/
theorem encode_double_shift
    (lin middle_grey min_exposure max_exposure : ℝ)
    (hlin : 0 < lin) (hg : 0 < middle_grey)
    (hmM : min_exposure < max_exposure) :
    log_encoding_Log2 (2 * lin) middle_grey min_exposure max_exposure -
      log_encoding_Log2 lin middle_grey min_exposure max_exposure =
    1 / (max_exposure - min_exposure) := by
  have hne : max_exposure - min_exposure ≠ 0 := sub_ne_zero.mpr (ne_of_gt hmM)
  simp only [log_encoding_Log2, to_domain_1, from_range_1]
  have h2 : (2 : ℝ) * lin / middle_grey = 2 * (lin / middle_grey) := by ring
  have hlog : Real.logb 2 (2 * lin / middle_grey)
      = 1 + Real.logb 2 (lin / middle_grey) := by
    rw [h2, Real.logb_mul (by norm_num) (ne_of_gt (div_pos hlin hg)),
      Real.logb_self_eq_one (by norm_num)]
  rw [hlog]
  field_simp

/-- Witness for C9 at lin = 1, middle_grey = 1, min_exposure = 0,
max_exposure = 2. -/
theorem encode_double_shift_witness :
    (0 : ℝ) < 1 ∧ (0 : ℝ) < 2 ∧
      log_encoding_Log2 (2 * 1) 1 0 2 - log_encoding_Log2 1 1 0 2 = 1 / 2 := by
  refine ⟨by norm_num, by norm_num, ?_⟩
  have h := encode_double_shift 1 1 0 2 (by norm_num) (by norm_num) (by norm_num)
  simpa using h

/-- C10: for every real log_norm and every parameter triple with
middle_grey > 0, with identity hooks, the decoded value is strictly
positive. -/
theorem decode_positive
    (log_norm middle_grey min_exposure max_exposure : ℝ)
    (hg : 0 < middle_grey) :
    0 < log_decoding_Log2 log_norm middle_grey min_exposure max_exposure := by
  simp only [log_decoding_Log2, to_domain_1, from_range_1]
  exact mul_pos (Real.rpow_pos_of_pos (by norm_num) _) hg

/-- Witness for C10 at log_norm = -5, middle_grey = 1, min_exposure = 0,
max_exposure = 1. -/
theorem decode_positive_witness :
    (0 : ℝ) < 1 ∧ 0 < log_decoding_Log2 (-5) 1 0 1 :=
  ⟨by norm_num, decode_positive (-5) 1 0 1 (by norm_num)⟩

/-- Modelled from the spec: numpy evaluates each arithmetic stage of
log_encoding_Log2 elementwise over an array input; the array is embedded as
a list of reals and every stage of the pipeline becomes an elementwise map. -/
noncomputable def log_encoding_Log2_array
    (lin : List ℝ) (middle_grey min_exposure max_exposure : ℝ) : List ℝ :=
  let lin' := lin.map to_domain_1
  let lg2 := lin'.map (fun x => Real.logb 2 (x / middle_grey))
  let log_norm :=
    lg2.map (fun l => (l - min_exposure) / (max_exposure - min_exposure))
  log_norm.map from_range_1

/-- Modelled from the spec: numpy evaluates each arithmetic stage of
log_decoding_Log2 elementwise over an array input; the array is embedded as
a list of reals and every stage of the pipeline becomes an elementwise map. -/
noncomputable def log_decoding_Log2_array
    (log_norm : List ℝ) (middle_grey min_exposure max_exposure : ℝ) : List ℝ :=
  let log_norm' := log_norm.map to_domain_1
  let lg2 :=
    log_norm'.map (fun y => y * (max_exposure - min_exposure) + min_exposure)
  let lin := lg2.map (fun l => (2 : ℝ) ^ l * middle_grey)
  lin.map from_range_1

/-- C8: on a length-N list input both functions return a length-N list whose
element at every index i is the scalar function applied to the input element
at index i (stated with optional indexing, so it covers all indices). -/
theorem elementwise_shape_preservation
    (lin log_norm : List ℝ) (middle_grey min_exposure max_exposure : ℝ)
    (i j : ℕ) :
    (log_encoding_Log2_array lin middle_grey min_exposure max_exposure).length
        = lin.length ∧
    (log_encoding_Log2_array lin middle_grey min_exposure max_exposure)[i]? =
      (lin[i]?).map
        (fun x => log_encoding_Log2 x middle_grey min_exposure max_exposure) ∧
    (log_decoding_Log2_array log_norm middle_grey min_exposure max_exposure).length
        = log_norm.length ∧
    (log_decoding_Log2_array log_norm middle_grey min_exposure max_exposure)[j]? =
      (log_norm[j]?).map
        (fun y => log_decoding_Log2 y middle_grey min_exposure max_exposure) := by
  refine ⟨?_, ?_, ?_, ?_⟩
  · simp [log_encoding_Log2_array]
  · simp only [log_encoding_Log2_array, List.map_map, List.getElem?_map]
    cases lin[i]? <;>
      simp [Function.comp, log_encoding_Log2, to_domain_1, from_range_1]
  · simp [log_decoding_Log2_array]
  · simp only [log_decoding_Log2_array, List.map_map, List.getElem?_map]
    cases log_norm[j]? <;>
      simp [Function.comp, log_decoding_Log2, to_domain_1, from_range_1]

lemma sqrt_two_lb : (1.414213562 : ℝ) < Real.sqrt 2 :=
  (Real.lt_sqrt (by norm_num)).mpr (by norm_num)

lemma sqrt_two_ub : Real.sqrt 2 < 1.414213563 :=
  (Real.sqrt_lt' (by norm_num)).mpr (by norm_num)

lemma two_rpow_sixfive : (2 : ℝ) ^ (6.5 : ℝ) = 64 * Real.sqrt 2 := by
  have h : (6.5 : ℝ) = ((6 : ℕ) : ℝ) + 1 / 2 := by norm_num
  rw [h, Real.rpow_add (by norm_num), Real.rpow_natCast, ← Real.sqrt_eq_rpow]
  norm_num

lemma two_rpow_neg_sixfive : (2 : ℝ) ^ (-6.5 : ℝ) = Real.sqrt 2 / 128 := by
  have h : (-6.5 : ℝ) = -(6.5 : ℝ) := by norm_num
  rw [h, Real.rpow_neg (by norm_num), two_rpow_sixfive]
  have h2 : Real.sqrt 2 * Real.sqrt 2 = 2 := Real.mul_self_sqrt (by norm_num)
  refine inv_eq_of_mul_eq_one_right ?_
  linear_combination h2 / 2

lemma default_min_exposure_eq :
    default_min_exposure = 9 * Real.sqrt 2 / 6400 := by
  rw [default_min_exposure, two_rpow_neg_sixfive]
  ring

lemma default_max_exposure_eq :
    default_max_exposure = 288 * Real.sqrt 2 / 25 := by
  rw [default_max_exposure, two_rpow_sixfive]
  ring

lemma logb2_100_lb : (664385 : ℝ) / 100000 < Real.logb 2 100 := by
  rw [Real.lt_logb_iff_rpow_lt (by norm_num) (by norm_num)]
  have key : ((2 : ℝ) ^ ((664385 : ℝ) / 100000)) ^ (100000 : ℕ)
      = (2 : ℝ) ^ (664385 : ℕ) := by
    rw [← Real.rpow_natCast ((2 : ℝ) ^ ((664385 : ℝ) / 100000)) 100000,
      ← Real.rpow_mul (by norm_num),
      show (664385 : ℝ) / 100000 * ((100000 : ℕ) : ℝ) = ((664385 : ℕ) : ℝ) by
        push_cast; norm_num,
      Real.rpow_natCast]
  by_contra hcon
  push_neg at hcon
  have hpow : (100 : ℝ) ^ (100000 : ℕ)
      ≤ ((2 : ℝ) ^ ((664385 : ℝ) / 100000)) ^ (100000 : ℕ) :=
    pow_le_pow_left₀ (by norm_num) hcon 100000
  rw [key] at hpow
  have hnat : (2 : ℝ) ^ (664385 : ℕ) < (100 : ℝ) ^ (100000 : ℕ) := by
    exact_mod_cast (by norm_num : (2 : ℕ) ^ 664385 < 100 ^ 100000)
  linarith

lemma logb2_100_ub : Real.logb 2 100 < (664386 : ℝ) / 100000 := by
  rw [Real.logb_lt_iff_lt_rpow (by norm_num) (by norm_num)]
  have key : ((2 : ℝ) ^ ((664386 : ℝ) / 100000)) ^ (100000 : ℕ)
      = (2 : ℝ) ^ (664386 : ℕ) := by
    rw [← Real.rpow_natCast ((2 : ℝ) ^ ((664386 : ℝ) / 100000)) 100000,
      ← Real.rpow_mul (by norm_num),
      show (664386 : ℝ) / 100000 * ((100000 : ℕ) : ℝ) = ((664386 : ℕ) : ℝ) by
        push_cast; norm_num,
      Real.rpow_natCast]
  by_contra hcon
  push_neg at hcon
  have hpow : ((2 : ℝ) ^ ((664386 : ℝ) / 100000)) ^ (100000 : ℕ)
      ≤ (100 : ℝ) ^ (100000 : ℕ) :=
    pow_le_pow_left₀ (by positivity) hcon 100000
  rw [key] at hpow
  have hnat : (100 : ℝ) ^ (100000 : ℕ) < (2 : ℝ) ^ (664386 : ℕ) := by
    exact_mod_cast (by norm_num : (100 : ℕ) ^ 100000 < 2 ^ 664386)
  linarith

lemma encode_18_eq :
    log_encoding_Log2 18 default_middle_grey default_min_exposure
        default_max_exposure
      = (Real.logb 2 100 - 9 * Real.sqrt 2 / 6400) /
        (288 * Real.sqrt 2 / 25 - 9 * Real.sqrt 2 / 6400) := by
  simp only [log_encoding_Log2, to_domain_1, from_range_1,
    default_min_exposure_eq, default_max_exposure_eq, default_middle_grey]
  norm_num

/-- C5: with the default parameters (middle_grey = 0.18, min_exposure =
0.18 * 2 ^ (-6.5), max_exposure = 0.18 * 2 ^ 6.5) and identity hooks,
encoding 18 gives approximately 0.40773288970434662 (within 10 ^ -6 in real
arithmetic) and decoding 0.40773288970434662 gives approximately 18
(within 10 ^ -3 in real arithmetic), so the docstring pair round-trips. -/
theorem docstring_numeric_examples :
    |log_encoding_Log2 18 default_middle_grey default_min_exposure
        default_max_exposure - 0.40773288970434662| < 1 / 1000000 ∧
    |log_decoding_Log2 0.40773288970434662 default_middle_grey
        default_min_exposure default_max_exposure - 18| < 1 / 1000 := by
  have hs1 := sqrt_two_lb
  have hs2 := sqrt_two_ub
  have hL1 := logb2_100_lb
  have hL2 := logb2_100_ub
  constructor
  · rw [encode_18_eq]
    have hden : (0 : ℝ) < 288 * Real.sqrt 2 / 25 - 9 * Real.sqrt 2 / 6400 := by
      nlinarith
    rw [abs_lt]
    constructor
    · rw [lt_sub_iff_add_lt, lt_div_iff₀ hden]
      linarith [hL1, hs2]
    · rw [sub_lt_iff_lt_add, div_lt_iff₀ hden]
      linarith [hL2, hs1]
  · have hdec : log_decoding_Log2 0.40773288970434662 default_middle_grey
        default_min_exposure default_max_exposure
        = (2 : ℝ) ^ (0.40773288970434662 *
            (288 * Real.sqrt 2 / 25 - 9 * Real.sqrt 2 / 6400)
            + 9 * Real.sqrt 2 / 6400) * 0.18 := by
      simp only [log_decoding_Log2, to_domain_1, from_range_1,
        default_min_exposure_eq, default_max_exposure_eq, default_middle_grey]
    rw [hdec]
    set x := 0.40773288970434662 *
        (288 * Real.sqrt 2 / 25 - 9 * Real.sqrt 2 / 6400)
        + 9 * Real.sqrt 2 / 6400 with hxdef
    have hx2 : x < 664385 / 100000 + 8 / 100000 := by
      rw [hxdef]; linarith [hs2]
    have hx1 : (664386 : ℝ) / 100000 - 8 / 100000 < x := by
      rw [hxdef]; linarith [hs1]
    have hlog2pos : (0 : ℝ) < Real.log 2 := Real.log_pos (by norm_num)
    have hlogR2 : Real.logb 2 ((18001 : ℝ) / 180)
        = Real.logb 2 100 + Real.logb 2 ((18001 : ℝ) / 18000) := by
      rw [← Real.logb_mul (by norm_num) (by norm_num)]
      norm_num
    have hsmall2 : (8 : ℝ) / 100000 < Real.logb 2 ((18001 : ℝ) / 18000) := by
      have hlow : (1 : ℝ) / 18001 ≤ Real.log ((18001 : ℝ) / 18000) := by
        have h := Real.log_le_sub_one_of_pos
          (show (0 : ℝ) < 18000 / 18001 by norm_num)
        rw [show (18000 : ℝ) / 18001 = ((18001 : ℝ) / 18000)⁻¹ by norm_num,
          Real.log_inv] at h
        linarith
      rw [Real.logb, lt_div_iff₀ hlog2pos]
      linarith [Real.log_two_lt_d9, hlow]
    have hxlt : x < Real.logb 2 ((18001 : ℝ) / 180) := by
      rw [hlogR2]; linarith [hL1, hx2, hsmall2]
    have h2x : (2 : ℝ) ^ x < (18001 : ℝ) / 180 := by
      have h := (Real.rpow_lt_rpow_left_iff (show (1 : ℝ) < 2 by norm_num)).mpr hxlt
      rwa [Real.rpow_logb (by norm_num) (by norm_num) (by norm_num)] at h
    have hlogR1 : Real.logb 2 ((17999 : ℝ) / 180)
        = Real.logb 2 100 + Real.logb 2 ((17999 : ℝ) / 18000) := by
      rw [← Real.logb_mul (by norm_num) (by norm_num)]
      norm_num
    have hsmall1 : Real.logb 2 ((17999 : ℝ) / 18000) < -((8 : ℝ) / 100000) := by
      have hup : Real.log ((17999 : ℝ) / 18000) ≤ (17999 : ℝ) / 18000 - 1 :=
        Real.log_le_sub_one_of_pos (by norm_num)
      rw [Real.logb, div_lt_iff₀ hlog2pos]
      linarith [Real.log_two_lt_d9, hup]
    have hxgt : Real.logb 2 ((17999 : ℝ) / 180) < x := by
      rw [hlogR1]; linarith [hL2, hx1, hsmall1]
    have h2xgt : (17999 : ℝ) / 180 < (2 : ℝ) ^ x := by
      have h := (Real.rpow_lt_rpow_left_iff (show (1 : ℝ) < 2 by norm_num)).mpr hxgt
      rwa [Real.rpow_logb (by norm_num) (by norm_num) (by norm_num)] at h
    rw [abs_lt]
    constructor <;> linarith [h2x, h2xgt]
